import Mathlib

/-!
Verification of `src/plugins/replication-graphql/crawling-checkpoint.ts`:
the push/pull replication checkpoints and the outgoing change-batch
selector `getChangesSinceLastPushSequence`.

The store collaborators that live outside this file of the repository
(`findLocalDocument`, `writeSingleLocal`, the pouch change feed, `bulkGet`,
`pouchSwapIdToPrimary`, the loop-prevention oracle
`wasRevisionfromPullReplication`) are modelled from the spec's interface
description and marked as such in their doc comments.  Everything else is a
direct shallow embedding of the TypeScript source.
-/

/-- A stored document body as the pouch layer hands it to the checkpoint
module: its current revision (the `_rev` property), its deletion marker
(the `_deleted` property) and its remaining fields, accessed dynamically by
name. -/
structure PouchDoc where
  rev : String
  deleted : Bool
  fields : List (String × String)
deriving DecidableEq, Repr

/-- Dynamic JS property access `doc[k]` on a document body.  `_rev` is a real
property of the stored body; any other absent field yields `none`
(JS `undefined`). -/
def getDynField (d : PouchDoc) (k : String) : Option String :=
  if k == "_rev" then some d.rev else d.fields.lookup k

/-- Character-level prefix test, the embedding of JS
`String.prototype.startsWith`. -/
def strStartsWith (s p : String) : Bool :=
  p.data.isPrefixOf s.data

/-- One entry of the pouch change feed (`PouchChangeRow` with its
`include_docs` body). -/
structure ChangeRow where
  id : String
  doc : PouchDoc
  deleted : Bool
deriving DecidableEq, Repr

/-- The value of one change-feed fetch (`PouchdbChangesResult`): the rows of
the window and the feed sequence of its last row. -/
structure ChangesResult where
  results : List ChangeRow
  last_seq : Nat
deriving DecidableEq, Repr

/-- The slice of `RxCollection` that the checkpoint module consumes, modelled
from the spec's external-store interface: the ordered change feed
(`pouch.changes {since, limit, include_docs}`), bulk get with latest-winner
resolution (`pouch.bulkGet {revs, latest}`, giving the winning body per
`(id, rev)` query), the output decoder `_handleFromPouch`, and the schema's
logical primary key path. -/
structure RxCollection where
  changes : Nat → Nat → ChangesResult
  bulkGetLatest : String → String → PouchDoc
  handleFromPouch : PouchDoc → PouchDoc
  primaryPath : String

/-- A local (non-replicated) metadata document of the store.  The model keeps
one record shape for both checkpoint kinds: `value` carries the push
sequence, `doc` carries the pull snapshot, and `rev` is the storage revision
counter (`_rev`), `0` meaning "freshly built, never stored". -/
structure LocalDoc where
  id : String
  rev : Nat
  value : Nat
  doc : Option PouchDoc
deriving DecidableEq, Repr

/-- Modelled from the spec: `findLocalDocument` (rx-storage-helper, not under
src/), the spec's `readLocalMetadata(key) → record | absent`: single-record
read of the local-only metadata store. -/
def findLocalDocument (st : List LocalDoc) (key : String) : Option LocalDoc :=
  st.find? (fun d => d.id == key)

/-- Modelled from the spec: `writeSingleLocal` (rx-storage-helper, not under
src/), the spec's `writeLocalMetadata(key, record, expectedRevision?)`.  A
record with an unknown id is inserted (revision 1).  A write over an existing
record is accepted only when it carries the store's current revision (or
`overwrite` is set), in which case the record is replaced with its revision
bumped; otherwise the write is rejected with a revision conflict (`none`). -/
def writeSingleLocal (st : List LocalDoc) (overwrite : Bool) (doc : LocalDoc) :
    Option (List LocalDoc × LocalDoc) :=
  match st.find? (fun d => d.id == doc.id) with
  | none =>
      some ({ doc with rev := 1 } :: st, { doc with rev := 1 })
  | some existing =>
      if overwrite || doc.rev == existing.rev then
        some
          (st.map (fun d => if d.id == doc.id then { doc with rev := existing.rev + 1 } else d),
            { doc with rev := existing.rev + 1 })
      else
        none

/-- Modelled from the spec: the plugin identifier constant
`GRAPHQL_REPLICATION_PLUGIN_IDENT` (`./helper`, not under src/) — the
`<plugin-id>` of the spec's persisted-key layout.  Its concrete text only
namespaces the keys. -/
def GRAPHQL_REPLICATION_PLUGIN_IDENT : String := "rxdbreplicationgraphql"

/-- Key of the push checkpoint record for one endpoint. -/
def pushSequenceId (endpointHash : String) : String :=
  GRAPHQL_REPLICATION_PLUGIN_IDENT ++ "-push-checkpoint-" ++ endpointHash

/-- `getLastPushSequence`: read the push checkpoint, defaulting to 0 when the
record is absent. -/
def getLastPushSequence (st : List LocalDoc) (endpointHash : String) : Nat :=
  match findLocalDocument st (pushSequenceId endpointHash) with
  | none => 0
  | some d => d.value

/-- `setLastPushSequence`: read-modify-write of the push checkpoint record.
If absent it is created with the given sequence; otherwise the existing
record (with its current storage revision) has its `value` overwritten and is
written back. -/
def setLastPushSequence (st : List LocalDoc) (endpointHash : String) (seq : Nat) :
    Option (List LocalDoc × LocalDoc) :=
  match findLocalDocument st (pushSequenceId endpointHash) with
  | none =>
      writeSingleLocal st false
        { id := pushSequenceId endpointHash, rev := 0, value := seq, doc := none }
  | some d =>
      writeSingleLocal st false { d with value := seq }

/-- Key of the pull checkpoint record for one endpoint. -/
def pullLastDocumentId (endpointHash : String) : String :=
  GRAPHQL_REPLICATION_PLUGIN_IDENT ++ "-pull-checkpoint-" ++ endpointHash

/-- `getLastPullDocument`: read the pull checkpoint, returning the stored
document snapshot, or `none` (JS `null`) when the record is absent. -/
def getLastPullDocument (st : List LocalDoc) (endpointHash : String) : Option PouchDoc :=
  match findLocalDocument st (pullLastDocumentId endpointHash) with
  | none => none
  | some d => d.doc

/-- `setLastPullDocument`: read-modify-write of the pull checkpoint record,
creating it when absent and otherwise updating its `doc` field on the
existing record. -/
def setLastPullDocument (st : List LocalDoc) (endpointHash : String) (d : PouchDoc) :
    Option (List LocalDoc × LocalDoc) :=
  match findLocalDocument st (pullLastDocumentId endpointHash) with
  | none =>
      writeSingleLocal st false
        { id := pullLastDocumentId endpointHash, rev := 0, value := 0, doc := some d }
  | some localDoc =>
      writeSingleLocal st false { localDoc with doc := some d }

/-- The filter predicate of `getChangesSinceLastPushSequence` (the closure
passed to `changes.results.filter`): a change is pushable unless
(i) the loop-prevention oracle (`wasRevisionfromPullReplication`, a
consumed capability, passed here as the function `oracle`) reports its
current revision as pull-originated for this endpoint, or
(ii) its document's `lastPulledRevField` equals the document's current
revision, or (iii) it is an internal design document. -/
def changeIsPushable (oracle : String → String → Bool)
    (endpointHash lastPulledRevField : String) (change : ChangeRow) : Bool :=
  if oracle endpointHash change.doc.rev then false
  else if getDynField change.doc lastPulledRevField == some change.doc.rev then false
  else if strStartsWith change.id "_design/" then false
  else true

/-- The `syncRevisions` refresh of one selected change: re-fetch the document
by id and feed-time revision through bulk get with latest-winner resolution
and rebuild the row from the fetched body, taking `deleted` from the fetched
body's deletion marker. -/
def refreshRow (col : RxCollection) (r : ChangeRow) : ChangeRow :=
  { id := r.id
    doc := col.bulkGetLatest r.id r.doc.rev
    deleted := (col.bulkGetLatest r.id r.doc.rev).deleted }

/-- Modelled from the spec: `pouchSwapIdToPrimary` (rx-storage-pouchdb, not
under src/): normalize the primary-key field from the store's internal
identifier convention (`_id`) to the schema's logical primary key name — the
`_id` field's value is moved to the `primaryPath` field. -/
def pouchSwapIdToPrimary (primaryPath : String) (d : PouchDoc) : PouchDoc :=
  match d.fields.lookup "_id" with
  | none => d
  | some v =>
      { d with fields := (primaryPath, v) :: d.fields.filter (fun kv => !(kv.1 == "_id")) }

/-- The final post-processing of one returned change: decode the body from
store-native form (`collection._handleFromPouch`) and swap the internal
identifier to the schema's logical primary key. -/
def postRow (col : RxCollection) (c : ChangeRow) : ChangeRow :=
  { c with doc := pouchSwapIdToPrimary col.primaryPath (col.handleFromPouch c.doc) }

/-- The `useResults` of one iteration of the retry loop of
`getChangesSinceLastPushSequence`: the raw window fetched at cursor `s`,
with the non-pushable changes filtered out, and — when `syncRevisions` is
set and anything survived the filter — each survivor refreshed through bulk
get with latest-winner resolution. -/
def selectWindow (col : RxCollection) (oracle : String → String → Bool)
    (eh field : String) (bs : Nat) (sync : Bool) (s : Nat) : List ChangeRow :=
  if sync = true ∧ (col.changes s bs).results.filter (changeIsPushable oracle eh field) ≠ [] then
    ((col.changes s bs).results.filter (changeIsPushable oracle eh field)).map (refreshRow col)
  else
    (col.changes s bs).results.filter (changeIsPushable oracle eh field)

/-- The retry loop (`while (retry)`) of `getChangesSinceLastPushSequence`:
fetch a window of at most `batchSize` raw changes after the cursor, filter
out the non-pushable ones, optionally refresh the survivors through bulk get
(`selectWindow`), and either return this window's result or — when
everything was filtered out but the raw window was full — advance the scan
cursor to the window's `last_seq` and retry.  `fuel` bounds the number of
iterations (the source loop is unbounded); the returned `Nat` counts the
feed fetches performed. -/
def changesLoop (col : RxCollection) (oracle : String → String → Bool)
    (endpointHash lastPulledRevField : String) (batchSize : Nat) (syncRevisions : Bool) :
    Nat → Nat → Option (ChangesResult × Nat)
  | 0, _ => none
  | fuel + 1, lastPushSequence =>
      if selectWindow col oracle endpointHash lastPulledRevField batchSize syncRevisions
            lastPushSequence = [] ∧
          (col.changes lastPushSequence batchSize).results.length = batchSize then
        match changesLoop col oracle endpointHash lastPulledRevField batchSize syncRevisions
            fuel (col.changes lastPushSequence batchSize).last_seq with
        | none => none
        | some (res, n) => some (res, n + 1)
      else
        some
          ({ results :=
                selectWindow col oracle endpointHash lastPulledRevField batchSize syncRevisions
                  lastPushSequence
             last_seq := (col.changes lastPushSequence batchSize).last_seq },
            1)

/-- `getChangesSinceLastPushSequence`: read the push cursor, run the retry
loop from it, and post-process every selected change (decode + primary-key
swap).  Returns the batch together with the number of feed fetches; `none`
only when the iteration bound `fuel` ran out. -/
def getChangesSinceLastPushSequence (col : RxCollection) (st : List LocalDoc)
    (oracle : String → String → Bool) (endpointHash lastPulledRevField : String)
    (batchSize : Nat) (syncRevisions : Bool) (fuel : Nat) :
    Option (ChangesResult × Nat) :=
  match changesLoop col oracle endpointHash lastPulledRevField batchSize syncRevisions
      fuel (getLastPushSequence st endpointHash) with
  | none => none
  | some (changes, n) =>
      some ({ results := changes.results.map (postRow col), last_seq := changes.last_seq }, n)

/-- Modelled from the spec: the store's ordered change feed
`changesSince(sequence, limit)`, built from a finite list of
(sequence, change) pairs sorted by sequence: it delivers the first `limit`
entries strictly after `since`, with `last_seq` the largest delivered
sequence (or `since` when none was delivered). -/
def feedChanges (feed : List (Nat × ChangeRow)) (since limit : Nat) : ChangesResult :=
  { results := ((feed.filter (fun p => since < p.1)).take limit).map Prod.snd
    last_seq :=
      ((feed.filter (fun p => since < p.1)).take limit).foldl (fun acc p => max acc p.1) since }

/-- An oracle that flags nothing as pull-originated. -/
def oracleNone : String → String → Bool := fun _ _ => false

/-- Concrete change rows for the batch-shape scenario: `A(seq 1)`,
`B(seq 2, pull-originated)`, `C(seq 3)`. -/
def rowA : ChangeRow :=
  { id := "a", doc := { rev := "1-a", deleted := false, fields := [("k", "a")] }, deleted := false }

/-- The pull-originated middle row of the batch-shape scenario. -/
def rowB : ChangeRow :=
  { id := "b", doc := { rev := "1-b", deleted := false, fields := [("k", "b")] }, deleted := false }

/-- The third row of the batch-shape scenario. -/
def rowC : ChangeRow :=
  { id := "c", doc := { rev := "1-c", deleted := false, fields := [("k", "c")] }, deleted := false }

/-- The three-change feed `[A(1), B(2), C(3)]`. -/
def c7feed : List (Nat × ChangeRow) := [(1, rowA), (2, rowB), (3, rowC)]

/-- An oracle that reports exactly `B`'s revision as pull-originated. -/
def c7oracle : String → String → Bool := fun _ r => r == "1-b"

/-- A collection over the three-change feed, with an identity decoder and
primary key `k`. -/
def colC7 : RxCollection :=
  { changes := feedChanges c7feed
    bulkGetLatest := fun _ _ => { rev := "9-z", deleted := false, fields := [] }
    handleFromPouch := id
    primaryPath := "k" }

/-- One raw change of the total-filtering scenario: sequence `i` carries a
pull-originated change, an unchanged-pulled change or a design document,
depending on `i mod 3` — every one of them non-pushable. -/
def c3row (i : Nat) : Nat × ChangeRow :=
  if i % 3 == 1 then
    (i, { id := "p", doc := { rev := "1-pulled", deleted := false, fields := [] },
          deleted := false })
  else if i % 3 == 2 then
    (i, { id := "u",
          doc := { rev := "1-u", deleted := false, fields := [("lastPulledRev", "1-u")] },
          deleted := false })
  else
    (i, { id := "_design/x", doc := { rev := "1-d", deleted := false, fields := [] },
          deleted := false })

/-- The 25-change feed of the total-filtering scenario, sequences 1..25. -/
def c3feed : List (Nat × ChangeRow) := (List.range 25).map (fun i => c3row (i + 1))

/-- The oracle of the total-filtering scenario: revision `1-pulled` is
pull-originated. -/
def c3oracle : String → String → Bool := fun _ r => r == "1-pulled"

/-- A collection over the 25-change totally-filtered feed. -/
def colC3 : RxCollection :=
  { changes := feedChanges c3feed
    bulkGetLatest := fun _ _ => { rev := "9-z", deleted := false, fields := [] }
    handleFromPouch := id
    primaryPath := "k" }

/-- The feed-time row of the revision-refresh scenario. -/
def c8rowOld : ChangeRow :=
  { id := "x", doc := { rev := "1-x", deleted := false, fields := [("v", "old")] },
    deleted := false }

/-- The refresh-time winning body of the revision-refresh scenario: the
document was mutated (and deleted) between feed read and refresh. -/
def c8docNew : PouchDoc :=
  { rev := "2-x", deleted := true, fields := [("v", "new")] }

/-- A collection whose bulk get returns the mutated winner `c8docNew` for the
single feed row `c8rowOld`. -/
def colC8 : RxCollection :=
  { changes := feedChanges [(1, c8rowOld)]
    bulkGetLatest := fun _ _ => c8docNew
    handleFromPouch := id
    primaryPath := "k" }

/-- A collection with an empty change feed (every fetch returns zero rows and
leaves the cursor where it was). -/
def colEmptyFeed : RxCollection :=
  { changes := fun s _ => { results := [], last_seq := s }
    bulkGetLatest := fun _ _ => c8docNew
    handleFromPouch := id
    primaryPath := "k" }


/-- Characterisation of the pushable-change filter as its three clauses. -/
theorem changeIsPushable_iff (oracle : String → String → Bool) (eh field : String)
    (c : ChangeRow) :
    changeIsPushable oracle eh field c = true ↔
      oracle eh c.doc.rev = false ∧
      (getDynField c.doc field == some c.doc.rev) = false ∧
      strStartsWith c.id "_design/" = false := by
  unfold changeIsPushable
  cases h1 : oracle eh c.doc.rev <;>
    cases h2 : getDynField c.doc field == some c.doc.rev <;>
      cases h3 : strStartsWith c.id "_design/" <;> simp

/-- Every row of a selected window originates from a change of the raw
window fetched at the same cursor that passed the pushable filter; in
`syncRevisions` mode the row is that change refreshed through bulk get,
otherwise it is the change itself. -/
theorem mem_selectWindow (col : RxCollection) (oracle : String → String → Bool)
    (eh field : String) (bs : Nat) (sync : Bool) (s : Nat) (r : ChangeRow)
    (hr : r ∈ selectWindow col oracle eh field bs sync s) :
    ∃ c, c ∈ (col.changes s bs).results ∧ changeIsPushable oracle eh field c = true ∧
      r = cond sync (refreshRow col c) c := by
  unfold selectWindow at hr
  split at hr
  · next hc =>
      obtain ⟨c, hcmem, rfl⟩ := List.mem_map.1 hr
      obtain ⟨hmem, hpush⟩ := List.mem_filter.1 hcmem
      exact ⟨c, hmem, hpush, by simp [hc.1]⟩
  · next hc =>
      obtain ⟨hmem, hpush⟩ := List.mem_filter.1 hr
      have hsync : sync = false := by
        cases hs : sync
        · rfl
        · exact absurd ⟨hs, fun he => by simp [he] at hr⟩ hc
      exact ⟨r, hmem, hpush, by simp [hsync]⟩

/-- Shape of a successful retry-loop run: the returned batch is the selected
window at some scan cursor, together with that window's `last_seq`. -/
theorem changesLoop_shape (col : RxCollection) (oracle : String → String → Bool)
    (eh field : String) (bs : Nat) (sync : Bool) :
    ∀ fuel s res n,
      changesLoop col oracle eh field bs sync fuel s = some (res, n) →
      ∃ s2,
        res.last_seq = (col.changes s2 bs).last_seq ∧
        res.results = selectWindow col oracle eh field bs sync s2 := by
  intro fuel
  induction fuel with
  | zero => intro s res n h; simp [changesLoop] at h
  | succ fuel ih =>
      intro s res n h
      rw [changesLoop] at h
      split at h
      · split at h
        · exact absurd h (by simp)
        · next res0 n0 heq =>
            simp only [Option.some.injEq, Prod.mk.injEq] at h
            obtain ⟨rfl, rfl⟩ := h
            exact ih _ _ _ heq
      · simp only [Option.some.injEq, Prod.mk.injEq] at h
        obtain ⟨rfl, rfl⟩ := h
        exact ⟨s, rfl, rfl⟩

/-- Shape of a successful `getChangesSinceLastPushSequence`: the batch is the
post-processed (decoded, primary-key swapped) selected window at some scan
cursor. -/
theorem getChanges_shape (col : RxCollection) (st : List LocalDoc)
    (oracle : String → String → Bool) (eh field : String) (bs : Nat) (sync : Bool)
    (fuel : Nat) (res : ChangesResult) (n : Nat)
    (hres : getChangesSinceLastPushSequence col st oracle eh field bs sync fuel =
      some (res, n)) :
    ∃ s2,
      res.last_seq = (col.changes s2 bs).last_seq ∧
      res.results = (selectWindow col oracle eh field bs sync s2).map (postRow col) := by
  unfold getChangesSinceLastPushSequence at hres
  split at hres
  · exact absurd hres (by simp)
  · next res0 n0 heq =>
      obtain ⟨s2, hseq, hrs⟩ := changesLoop_shape col oracle eh field bs sync _ _ _ _ heq
      simp only [Option.some.injEq, Prod.mk.injEq] at hres
      obtain ⟨rfl, rfl⟩ := hres
      exact ⟨s2, hseq, by rw [hrs]⟩

/-- Claim C1 (loop prevention): every record of a batch returned by
`getChangesSinceLastPushSequence` derives — via the optional bulk-get refresh
and the final decode/primary-key swap — from a raw-feed change whose current
revision the loop-prevention oracle does NOT report as pull-originated for
the endpoint.  Hence a change the oracle flags never appears in the returned
batch, for every change feed and every value of `batchSize` and
`syncRevisions`. -/
theorem pullOriginated_never_in_push_batch (col : RxCollection) (st : List LocalDoc)
    (oracle : String → String → Bool) (endpointHash lastPulledRevField : String)
    (batchSize : Nat) (syncRevisions : Bool) (fuel : Nat) (res : ChangesResult) (n : Nat)
    (hres : getChangesSinceLastPushSequence col st oracle endpointHash lastPulledRevField
      batchSize syncRevisions fuel = some (res, n)) :
    ∀ r ∈ res.results, ∃ s c, c ∈ (col.changes s batchSize).results ∧
      oracle endpointHash c.doc.rev = false ∧
      r = postRow col (cond syncRevisions (refreshRow col c) c) := by
  intro r hr
  obtain ⟨s2, _, hrs⟩ := getChanges_shape col st oracle endpointHash lastPulledRevField
    batchSize syncRevisions fuel res n hres
  rw [hrs] at hr
  obtain ⟨r0, hr0, rfl⟩ := List.mem_map.1 hr
  obtain ⟨c, hmem, hpush, rfl⟩ := mem_selectWindow col oracle endpointHash lastPulledRevField
    batchSize syncRevisions s2 r0 hr0
  exact ⟨s2, c, hmem,
    ((changeIsPushable_iff oracle endpointHash lastPulledRevField c).1 hpush).1, rfl⟩

/-- Witness for C1 at the concrete three-change feed: the record `A` of the
returned batch `[A, C]` derives from a change the oracle did not flag. -/
theorem pullOriginated_never_in_push_batch_witness :
    ∃ s c, c ∈ (colC7.changes s 10).results ∧
      c7oracle "e" c.doc.rev = false ∧
      rowA = postRow colC7 (cond false (refreshRow colC7 c) c) :=
  pullOriginated_never_in_push_batch colC7 [] c7oracle "e" "lastPulledRev" 10 false 1
    { results := [rowA, rowC], last_seq := 3 } 1 (by decide) rowA (by decide)

/-- Claim C2 (no re-push of an unchanged pulled document): every record of a
returned batch derives from a raw-feed change whose document body does NOT
have its `lastPulledRevField` equal to the document's current revision —
independently of what the oracle reports.  Hence a change whose
`lastPulledRevField` equals its `_rev` is never in the batch. -/
theorem unchanged_pulled_doc_never_in_push_batch (col : RxCollection) (st : List LocalDoc)
    (oracle : String → String → Bool) (endpointHash lastPulledRevField : String)
    (batchSize : Nat) (syncRevisions : Bool) (fuel : Nat) (res : ChangesResult) (n : Nat)
    (hres : getChangesSinceLastPushSequence col st oracle endpointHash lastPulledRevField
      batchSize syncRevisions fuel = some (res, n)) :
    ∀ r ∈ res.results, ∃ s c, c ∈ (col.changes s batchSize).results ∧
      ¬ getDynField c.doc lastPulledRevField = some c.doc.rev ∧
      r = postRow col (cond syncRevisions (refreshRow col c) c) := by
  intro r hr
  obtain ⟨s2, _, hrs⟩ := getChanges_shape col st oracle endpointHash lastPulledRevField
    batchSize syncRevisions fuel res n hres
  rw [hrs] at hr
  obtain ⟨r0, hr0, rfl⟩ := List.mem_map.1 hr
  obtain ⟨c, hmem, hpush, rfl⟩ := mem_selectWindow col oracle endpointHash lastPulledRevField
    batchSize syncRevisions s2 r0 hr0
  have hbeq := ((changeIsPushable_iff oracle endpointHash lastPulledRevField c).1 hpush).2.1
  exact ⟨s2, c, hmem, by intro he; rw [he] at hbeq; simp at hbeq, rfl⟩

/-- Witness for C2 at the concrete three-change feed: the record `C` of the
returned batch derives from a change whose `lastPulledRev` differs from its
current revision. -/
theorem unchanged_pulled_doc_never_in_push_batch_witness :
    ∃ s c, c ∈ (colC7.changes s 10).results ∧
      ¬ getDynField c.doc "lastPulledRev" = some c.doc.rev ∧
      rowC = postRow colC7 (cond false (refreshRow colC7 c) c) :=
  unchanged_pulled_doc_never_in_push_batch colC7 [] c7oracle "e" "lastPulledRev" 10 false 1
    { results := [rowA, rowC], last_seq := 3 } 1 (by decide) rowC (by decide)

/-- Looking up a key in an association list from which every pair with that
key was filtered out yields nothing. -/
theorem lookup_filter_not_key (k : String) (l : List (String × String)) :
    (l.filter (fun kv => !(kv.1 == k))).lookup k = none := by
  induction l with
  | nil => rfl
  | cons kv t ih =>
      cases hk : kv.1 == k with
      | true => simpa [List.filter, hk] using ih
      | false =>
          have hk2 : (k == kv.1) = false := by
            rw [beq_eq_false_iff_ne] at hk ⊢
            exact Ne.symm hk
          simpa [List.filter, List.lookup, hk, hk2] using ih

/-- After the primary-key swap, a document body no longer carries the
store-internal `_id` field (whenever the schema's primary key is a distinct
field name). -/
theorem lookup_id_pouchSwapIdToPrimary (p : String) (hp : p ≠ "_id") (d : PouchDoc) :
    (pouchSwapIdToPrimary p d).fields.lookup "_id" = none := by
  unfold pouchSwapIdToPrimary
  split
  · next hf => exact hf
  · next v hf =>
      have hp2 : ("_id" == p) = false := by
        rw [beq_eq_false_iff_ne]
        exact Ne.symm hp
      simp [List.lookup, hp2, lookup_filter_not_key]

/-- Claim C9 (primary-key normalization): every record of every batch
returned by `getChangesSinceLastPushSequence` has been decoded and had its
primary key swapped, so its body never exposes the store-internal `_id`
field — for every store representation, as long as the schema's logical
primary key differs from the internal identifier field, and for both values
of `syncRevisions`. -/
theorem returned_doc_never_exposes_internal_id (col : RxCollection) (st : List LocalDoc)
    (oracle : String → String → Bool) (endpointHash lastPulledRevField : String)
    (batchSize : Nat) (syncRevisions : Bool) (fuel : Nat) (res : ChangesResult) (n : Nat)
    (hpk : col.primaryPath ≠ "_id")
    (hres : getChangesSinceLastPushSequence col st oracle endpointHash lastPulledRevField
      batchSize syncRevisions fuel = some (res, n)) :
    ∀ r ∈ res.results, r.doc.fields.lookup "_id" = none := by
  intro r hr
  obtain ⟨s2, _, hrs⟩ := getChanges_shape col st oracle endpointHash lastPulledRevField
    batchSize syncRevisions fuel res n hres
  rw [hrs] at hr
  obtain ⟨r0, _, rfl⟩ := List.mem_map.1 hr
  exact lookup_id_pouchSwapIdToPrimary col.primaryPath hpk (col.handleFromPouch r0.doc)

/-- Witness for C9 at the concrete three-change feed with primary key `k`:
the returned record `A` exposes no internal `_id` field. -/
theorem returned_doc_never_exposes_internal_id_witness :
    rowA.doc.fields.lookup "_id" = none :=
  returned_doc_never_exposes_internal_id colC7 [] c7oracle "e" "lastPulledRev" 10 false 1
    { results := [rowA, rowC], last_seq := 3 } 1 (by decide) (by decide) rowA (by decide)

/-- Claim C8 (revision-refresh mode): when `syncRevisions` is true, the
returned batch is, change for change, the filtered window with each selected
document re-fetched by id and feed-time revision through bulk get with
latest-winner resolution (`refreshRow`, which also takes the record's
`deleted` flag from the fetched body's deletion marker), then post-processed
— the refresh-time state, not the feed-time snapshot. -/
theorem syncRevisions_returns_refreshed_bodies (col : RxCollection) (st : List LocalDoc)
    (oracle : String → String → Bool) (endpointHash lastPulledRevField : String)
    (batchSize : Nat) (fuel : Nat) (res : ChangesResult) (n : Nat)
    (hres : getChangesSinceLastPushSequence col st oracle endpointHash lastPulledRevField
      batchSize true fuel = some (res, n)) :
    ∃ s,
      res.results =
        ((col.changes s batchSize).results.filter
            (changeIsPushable oracle endpointHash lastPulledRevField)).map
          (fun c => postRow col (refreshRow col c)) ∧
      res.last_seq = (col.changes s batchSize).last_seq := by
  obtain ⟨s2, hseq, hrs⟩ := getChanges_shape col st oracle endpointHash lastPulledRevField
    batchSize true fuel res n hres
  refine ⟨s2, ?_, hseq⟩
  rw [hrs]
  unfold selectWindow
  split
  · next hc => simp [List.map_map, Function.comp]
  · next hc =>
      have hsel : (col.changes s2 batchSize).results.filter
          (changeIsPushable oracle endpointHash lastPulledRevField) = [] := by
        by_contra hne
        exact hc ⟨rfl, hne⟩
      simp [hsel]

/-- Witness for C8: with the one-change feed whose document was mutated
between feed read and refresh, the returned body is the refresh-time
winner `c8docNew`. -/
theorem syncRevisions_returns_refreshed_bodies_witness :
    ∃ s,
      ({ results := [{ id := "x", doc := c8docNew, deleted := true }], last_seq := 1 } :
          ChangesResult).results =
        ((colC8.changes s 10).results.filter
            (changeIsPushable oracleNone "e" "lastPulledRev")).map
          (fun c => postRow colC8 (refreshRow colC8 c)) ∧
      ({ results := [{ id := "x", doc := c8docNew, deleted := true }], last_seq := 1 } :
          ChangesResult).last_seq = (colC8.changes s 10).last_seq :=
  syncRevisions_returns_refreshed_bodies colC8 [] oracleNone "e" "lastPulledRev" 10 1
    { results := [{ id := "x", doc := c8docNew, deleted := true }], last_seq := 1 } 1
    (by decide)

/-- Fuel sufficiency for the retry loop: when every fetch at a cursor of at
least `N` returns a short (non-full) window, and every full window strictly
advances `last_seq` past the requested cursor, `fuel` iterations suffice
from any cursor `s` with `N ≤ s + fuel`. -/
theorem changesLoop_term (col : RxCollection) (oracle : String → String → Bool)
    (eh field : String) (bs : Nat) (sync : Bool) (N : Nat)
    (hN : ∀ s, N ≤ s → (col.changes s bs).results.length < bs)
    (hadv : ∀ s, (col.changes s bs).results.length = bs → s < (col.changes s bs).last_seq) :
    ∀ fuel s, N ≤ s + fuel →
      (changesLoop col oracle eh field bs sync (fuel + 1) s).isSome := by
  intro fuel
  induction fuel with
  | zero =>
      intro s hs
      rw [changesLoop]
      split
      · next hcond => exact absurd hcond.2 (Nat.ne_of_lt (hN s (by omega)))
      · simp
  | succ fuel ih =>
      intro s hs
      rw [changesLoop]
      split
      · next hcond =>
          have hlt := hadv s hcond.2
          have hnext := ih (col.changes s bs).last_seq (by omega)
          cases hcl : changesLoop col oracle eh field bs sync (fuel + 1)
              (col.changes s bs).last_seq with
          | none => rw [hcl] at hnext; simp at hnext
          | some p =>
              obtain ⟨res0, n0⟩ := p
              simp
      · simp

/-- Claim C4 (progress of the batch selector): for every change feed whose
fetches return at most `batchSize` rows, return fewer than `batchSize` rows
from some cursor on (the feed is finite and eventually exhausted), and
strictly advance `last_seq` past the requested cursor whenever a full window
is returned, `getChangesSinceLastPushSequence` terminates with a result:
the retry loop either finds a window with a pushable change or reaches the
feed's end, and an empty-after-filter window with the feed not yet exhausted
is retried internally, never surfaced as a failure. -/
theorem batch_selector_terminates (col : RxCollection) (st : List LocalDoc)
    (oracle : String → String → Bool) (endpointHash lastPulledRevField : String)
    (batchSize : Nat) (syncRevisions : Bool)
    (_hbound : ∀ s, (col.changes s batchSize).results.length ≤ batchSize)
    (hfin : ∃ N, ∀ s, N ≤ s → (col.changes s batchSize).results.length < batchSize)
    (hadv : ∀ s, (col.changes s batchSize).results.length = batchSize →
      s < (col.changes s batchSize).last_seq) :
    ∃ fuel out,
      getChangesSinceLastPushSequence col st oracle endpointHash lastPulledRevField batchSize
        syncRevisions fuel = some out := by
  obtain ⟨N, hN⟩ := hfin
  have h := changesLoop_term col oracle endpointHash lastPulledRevField batchSize syncRevisions
    N hN hadv N (getLastPushSequence st endpointHash) (by omega)
  refine ⟨N + 1, ?_⟩
  unfold getChangesSinceLastPushSequence
  cases hcl : changesLoop col oracle endpointHash lastPulledRevField batchSize syncRevisions
      (N + 1) (getLastPushSequence st endpointHash) with
  | none => rw [hcl] at h; simp at h
  | some p =>
      obtain ⟨res0, n0⟩ := p
      exact ⟨_, rfl⟩

/-- Witness for C4: the empty feed satisfies the three feed hypotheses, and
the selector indeed terminates on it. -/
theorem batch_selector_terminates_witness :
    ∃ fuel out,
      getChangesSinceLastPushSequence colEmptyFeed [] oracleNone "e" "lastPulledRev" 10
        false fuel = some out :=
  batch_selector_terminates colEmptyFeed [] oracleNone "e" "lastPulledRev" 10 false
    (fun s => by simp [colEmptyFeed])
    ⟨0, fun s _ => by simp [colEmptyFeed]⟩
    (fun s h => absurd h (by simp [colEmptyFeed]))

/-- Claim C3 (progress under total filtering): on the fresh store with a
25-change feed all of whose changes are non-pushable (pull-originated,
unchanged-pulled or design documents in turn), the selector with
`batchSize = 10` performs exactly 3 feed fetches (windows of 10, 10 and 5
raw changes), terminates without an error, and returns an empty result list
with `last_seq = 25`, the feed's final sequence. -/
theorem total_filtering_three_rounds_empty_batch :
    getChangesSinceLastPushSequence colC3 [] c3oracle "e" "lastPulledRev" 10 false 3 =
      some ({ results := [], last_seq := 25 }, 3) := by
  decide

/-- Claim C7 (batch shape): on the feed `[A(1), B(2, pull-originated),
C(3)]` with `batchSize = 10`, the returned batch holds exactly `[A, C]` in
feed order with `last_seq = 3` (one fetch round). -/
theorem batch_shape_skips_pull_originated_middle :
    getChangesSinceLastPushSequence colC7 [] c7oracle "e" "lastPulledRev" 10 false 1 =
      some ({ results := [rowA, rowC], last_seq := 3 }, 1) := by
  decide

/-- Prepending a record whose id is the key makes it the record found under
that key. -/
theorem find?_cons_self (w : LocalDoc) (st : List LocalDoc) (k : String) (hw : w.id = k) :
    (w :: st).find? (fun d => d.id == k) = some w := by
  simp [List.find?, hw]

/-- Replacing in place every record carrying the key makes the replacement
the record found under that key, provided one was present. -/
theorem find?_map_update (k : String) (w : LocalDoc) (hw : w.id = k) :
    ∀ (st : List LocalDoc) e, st.find? (fun d => d.id == k) = some e →
      (st.map (fun d => if d.id == k then w else d)).find? (fun d => d.id == k) = some w := by
  intro st
  induction st with
  | nil => intro e he; simp at he
  | cons a t ih =>
      intro e he
      cases ha : a.id == k with
      | true => simp [List.find?, ha, hw]
      | false =>
          simp only [List.find?, ha] at he
          simpa [List.find?, ha] using ih e he

/-- Replacing in place every record carrying the key preserves the number of
records carrying the key. -/
theorem countP_map_update (k : String) (w : LocalDoc) (hw : w.id = k)
    (st : List LocalDoc) :
    (st.map (fun d => if d.id == k then w else d)).countP (fun d => d.id == k) =
      st.countP (fun d => d.id == k) := by
  induction st with
  | nil => rfl
  | cons a t ih =>
      rw [List.map_cons, List.countP_cons, List.countP_cons, ih]
      cases ha : a.id == k with
      | true => simp [ha, hw]
      | false => simp [ha]

/-- `writeSingleLocal` on an absent id inserts the record, stamped with
revision 1. -/
theorem writeSingleLocal_insert (st : List LocalDoc) (ow : Bool) (doc : LocalDoc)
    (hf : st.find? (fun d => d.id == doc.id) = none) :
    writeSingleLocal st ow doc =
      some ({ doc with rev := 1 } :: st, { doc with rev := 1 }) := by
  unfold writeSingleLocal
  rw [hf]

/-- What a successful `writeSingleLocal` guarantees: the written record keeps
the given id and payload, it is the record now found under the id, the number
of records under the id becomes one if it was absent and is preserved
otherwise, and a write over an existing record bumps that record's
revision. -/
theorem writeSingleLocal_read (st : List LocalDoc) (ow : Bool) (doc : LocalDoc)
    (st2 : List LocalDoc) (w : LocalDoc)
    (hwr : writeSingleLocal st ow doc = some (st2, w)) :
    w.id = doc.id ∧ w.value = doc.value ∧ w.doc = doc.doc ∧
    st2.find? (fun d => d.id == doc.id) = some w ∧
    st2.countP (fun d => d.id == doc.id) = max (st.countP (fun d => d.id == doc.id)) 1 ∧
    ∀ e, st.find? (fun d => d.id == doc.id) = some e → w.rev = e.rev + 1 := by
  unfold writeSingleLocal at hwr
  split at hwr
  · next hf =>
      simp only [Option.some.injEq, Prod.mk.injEq] at hwr
      obtain ⟨rfl, rfl⟩ := hwr
      refine ⟨rfl, rfl, rfl, find?_cons_self _ st doc.id rfl, ?_, ?_⟩
      · have h0 : st.countP (fun d => d.id == doc.id) = 0 :=
          List.countP_eq_zero.2 (fun a ha => by simpa using List.find?_eq_none.1 hf a ha)
        simp [List.countP_cons, h0]
      · intro e he
        rw [hf] at he
        exact absurd he (by simp)
  · next e hf =>
      split at hwr
      · simp only [Option.some.injEq, Prod.mk.injEq] at hwr
        obtain ⟨rfl, rfl⟩ := hwr
        refine
          ⟨rfl, rfl, rfl,
            find?_map_update doc.id { doc with rev := e.rev + 1 } rfl st e hf, ?_, ?_⟩
        · have hpe := List.find?_some hf
          have h1 : 1 ≤ st.countP (fun d => d.id == doc.id) :=
            List.countP_pos_iff.2 ⟨e, List.mem_of_find?_eq_some hf, hpe⟩
          rw [countP_map_update doc.id { doc with rev := e.rev + 1 } rfl st]
          exact (Nat.max_eq_left h1).symm
        · intro e2 he2
          rw [hf] at he2
          obtain rfl : e = e2 := Option.some.inj he2
          rfl
      · exact absurd hwr (by simp)

/-- One successful `setLastPushSequence`: the write always succeeds (created
when absent, otherwise updated carrying the store's current revision), the
stored sequence then reads back as the written one, exactly one record holds
the checkpoint key afterwards when the store held at most one, and an update
bumps the revision of the previously found record. -/
theorem setLastPushSequence_spec (st : List LocalDoc) (h : String) (v : Nat) :
    ∃ st2 w, setLastPushSequence st h v = some (st2, w) ∧
      getLastPushSequence st2 h = v ∧
      findLocalDocument st2 (pushSequenceId h) = some w ∧
      st2.countP (fun d => d.id == pushSequenceId h) =
        max (st.countP (fun d => d.id == pushSequenceId h)) 1 ∧
      ∀ e, findLocalDocument st (pushSequenceId h) = some e → w.rev = e.rev + 1 := by
  cases hf : findLocalDocument st (pushSequenceId h) with
  | none =>
      cases hwr : writeSingleLocal st false
          { id := pushSequenceId h, rev := 0, value := v, doc := none } with
      | none =>
          rw [writeSingleLocal_insert st false
            { id := pushSequenceId h, rev := 0, value := v, doc := none } hf] at hwr
          exact absurd hwr (by simp)
      | some p =>
          obtain ⟨st2, w⟩ := p
          obtain ⟨hid, hval, -, hfind, hcnt, -⟩ :=
            writeSingleLocal_read st false _ st2 w hwr
          have hfind2 : findLocalDocument st2 (pushSequenceId h) = some w := hfind
          have hset : setLastPushSequence st h v = some (st2, w) := by
            unfold setLastPushSequence
            rw [hf]
            exact hwr
          refine ⟨st2, w, hset, ?_, hfind2, hcnt, ?_⟩
          · unfold getLastPushSequence
            rw [hfind2]
            exact hval
          · intro e he
            exact absurd he (by simp)
  | some d =>
      have hb := List.find?_some (hf : st.find? (fun x => x.id == pushSequenceId h) = some d)
      have he : d.id = pushSequenceId h := eq_of_beq hb
      cases hwr : writeSingleLocal st false { d with value := v } with
      | none =>
          have hf3 : st.find? (fun x => x.id == d.id) = some d := by
            have hf4 : st.find? (fun x => x.id == pushSequenceId h) = some d := hf
            simp only [← he] at hf4
            exact hf4
          have hf2 : st.find? (fun x => x.id == ({ d with value := v } : LocalDoc).id) =
              some d := hf3
          unfold writeSingleLocal at hwr
          rw [hf2] at hwr
          simp at hwr
      | some p =>
          obtain ⟨st2, w⟩ := p
          obtain ⟨hid, hval, -, hfind, hcnt, hbump⟩ :=
            writeSingleLocal_read st false _ st2 w hwr
          have hdi : ({ d with value := v } : LocalDoc).id = pushSequenceId h := he
          rw [hdi] at hfind hcnt hbump
          have hfind2 : findLocalDocument st2 (pushSequenceId h) = some w := hfind
          have hset : setLastPushSequence st h v = some (st2, w) := by
            unfold setLastPushSequence
            rw [hf]
            exact hwr
          refine ⟨st2, w, hset, ?_, hfind2, hcnt, ?_⟩
          · unfold getLastPushSequence
            rw [hfind2]
            exact hval
          · intro e2 he2
            obtain rfl : d = e2 := Option.some.inj he2
            exact hbump d hf

/-- Claim C5 (monotonic round-trip): for every endpoint hash, starting from
any store holding at most one record under the push-checkpoint key, writing
sequence 5 succeeds and reads back as 5; a subsequent write of 9 succeeds,
reads back as 9, and updates the existing checkpoint record — the second
written record carries the first one's storage revision bumped by one, and
the store still holds exactly one record under the key (no duplicate). -/
theorem push_sequence_roundtrip_update (st0 : List LocalDoc) (h : String)
    (hwf : st0.countP (fun d => d.id == pushSequenceId h) ≤ 1) :
    ∃ st1 d1 st2 d2,
      setLastPushSequence st0 h 5 = some (st1, d1) ∧
      getLastPushSequence st1 h = 5 ∧
      setLastPushSequence st1 h 9 = some (st2, d2) ∧
      getLastPushSequence st2 h = 9 ∧
      d2.rev = d1.rev + 1 ∧
      st2.countP (fun d => d.id == pushSequenceId h) = 1 := by
  obtain ⟨st1, d1, hset1, hget1, hfind1, hcnt1, -⟩ := setLastPushSequence_spec st0 h 5
  obtain ⟨st2, d2, hset2, hget2, -, hcnt2, hbump2⟩ := setLastPushSequence_spec st1 h 9
  have hone : st1.countP (fun d => d.id == pushSequenceId h) = 1 := by
    rw [hcnt1]
    exact Nat.max_eq_right hwf
  refine ⟨st1, d1, st2, d2, hset1, hget1, hset2, hget2, hbump2 d1 hfind1, ?_⟩
  rw [hcnt2, hone]
  exact Nat.max_self 1

/-- Witness for C5: the round trip on the fresh (empty) store. -/
theorem push_sequence_roundtrip_update_witness :
    ∃ st1 d1 st2 d2,
      setLastPushSequence [] "e" 5 = some (st1, d1) ∧
      getLastPushSequence st1 "e" = 5 ∧
      setLastPushSequence st1 "e" 9 = some (st2, d2) ∧
      getLastPushSequence st2 "e" = 9 ∧
      d2.rev = d1.rev + 1 ∧
      List.countP (fun d => d.id == pushSequenceId "e") st2 = 1 :=
  push_sequence_roundtrip_update [] "e" (by decide)

/-- Claim C6 (idempotent defaults): on an endpoint for which no checkpoint
record exists, `getLastPushSequence` returns 0 and `getLastPullDocument`
returns null.  Both are total pure reads of the store — in this embedding
they return plain values and no store, so neither can fail nor write. -/
theorem fresh_endpoint_defaults (st : List LocalDoc) (h : String)
    (hpush : findLocalDocument st (pushSequenceId h) = none)
    (hpull : findLocalDocument st (pullLastDocumentId h) = none) :
    getLastPushSequence st h = 0 ∧ getLastPullDocument st h = none := by
  constructor
  · unfold getLastPushSequence
    rw [hpush]
  · unfold getLastPullDocument
    rw [hpull]

/-- Witness for C6 on the empty store. -/
theorem fresh_endpoint_defaults_witness :
    getLastPushSequence [] "e" = 0 ∧ getLastPullDocument [] "e" = none :=
  fresh_endpoint_defaults [] "e" rfl rfl

/-- Counterexample to claim C10 as stated: two successful
`setLastPushSequence` calls for the same endpoint can regress the stored
sequence.  After writing 9 the stored value reads 9; a subsequent successful
write of 5 makes it read 5 — the stored sequence is not monotonically
non-decreasing across every sequence of successful calls. -/
theorem push_sequence_can_regress :
    ((setLastPushSequence [] "e" 9).map (fun p => getLastPushSequence p.1 "e") = some 9) ∧
    (((setLastPushSequence [] "e" 9).bind (fun p => setLastPushSequence p.1 "e" 5)).map
      (fun p => getLastPushSequence p.1 "e") = some 5) := by
  exact ⟨by decide, by decide⟩

/-- Claim C10 as amended: the stored push sequence is non-decreasing across
successful calls provided each `setLastPushSequence` call passes a sequence
at least the currently stored one (the serialized-caller discipline the spec
demands); reads have no side effect, so only writes matter.  One such write
never decreases the stored value. -/
theorem push_sequence_monotone_of_le (st : List LocalDoc) (h : String) (v : Nat)
    (hle : getLastPushSequence st h ≤ v) :
    ∃ st2 w, setLastPushSequence st h v = some (st2, w) ∧
      getLastPushSequence st h ≤ getLastPushSequence st2 h := by
  obtain ⟨st2, w, hset, hget, -, -, -⟩ := setLastPushSequence_spec st h v
  refine ⟨st2, w, hset, ?_⟩
  rw [hget]
  exact hle

/-- Witness for the amended C10 on the empty store. -/
theorem push_sequence_monotone_of_le_witness :
    ∃ st2 w, setLastPushSequence [] "e" 5 = some (st2, w) ∧
      getLastPushSequence [] "e" ≤ getLastPushSequence st2 "e" :=
  push_sequence_monotone_of_le [] "e" 5 (by decide)
